import Mathlib

/-!
Shallow embedding of the proof-of-existence (PoE) pallet found in
`pallets/poe/src/lib.rs` of the repository, together with theorems settling
the specification claims about its three dispatchables `create_claim`,
`revoke_claim` and `transfer_claim`.

Modelling choices:
* The storage map `Proofs : StorageMap<BoundedVec<u8, MaxClaimLength>,
  (AccountId, BlockNumber, bool)>` is a total function from fingerprints to
  `Option ClaimRecord`.  Fingerprints are byte sequences (`List Nat`); the
  length bound `MaxClaimLength` is enforced by the bounded-vector type before
  a call reaches the pallet and plays no role in any claim, so it is not
  re-modelled here.
* `ensure_signed` is the external identity provider: each operation receives
  the already-authenticated `AccountId` directly.
* `frame_system::Pallet::<T>::block_number()` is the external logical clock:
  each operation receives the current block number as an argument.
* A dispatchable returns a `CallOutcome`: the `DispatchResult`
  (`Except Error Unit`), the storage map after the call, and the list of
  events deposited by the call.
-/

namespace PoE

/-- A fingerprint: the byte-sequence key of the `Proofs` storage map
(`BoundedVec<u8, T::MaxClaimLength>` in the source). -/
abbrev Fingerprint := List Nat

/-- An authenticated account identity (`T::AccountId`). -/
abbrev AccountId := Nat

/-- A logical time point (`BlockNumberFor<T>`, the block number). -/
abbrev BlockNumber := Nat

/-- The value stored under a fingerprint: the tuple
`(T::AccountId, BlockNumberFor<T>, bool)` of the source's `Proofs` map. -/
structure ClaimRecord where
  owner : AccountId
  registeredAt : BlockNumber
  active : Bool
  deriving DecidableEq, Repr

/-- The `Proofs` storage map: fingerprint to optional claim record. -/
abbrev Proofs := Fingerprint → Option ClaimRecord

/-- `Proofs::<T>::contains_key`. -/
def containsKey (st : Proofs) (c : Fingerprint) : Bool :=
  (st c).isSome

/-- `Proofs::<T>::insert` (inserts or replaces the entry for `c`). -/
def insertP (st : Proofs) (c : Fingerprint) (r : ClaimRecord) : Proofs :=
  fun k => if k = c then some r else st k

/-- The storage map with no entries (genesis state). -/
def emptyProofs : Proofs := fun _ => none

/-- The pallet's error enum (`#[pallet::error] pub enum Error<T>`). -/
inductive Error where
  | NoneValue
  | StorageOverflow
  | ProofAlreadyExist
  | ProofNotExist
  | NotProofOwner
  | ProofAlreadyRevoked
  | CannotTransferToSelf
  deriving DecidableEq, Repr

/-- The pallet's event enum (`#[pallet::event] pub enum Event<T>`). -/
inductive Event where
  | ClaimCreated (owner : AccountId) (claim : Fingerprint)
  | ClaimRevoked (owner : AccountId) (claim : Fingerprint)
  | ClaimTransferred (old_owner : AccountId) (new_owner : AccountId)
      (claim : Fingerprint)
  deriving DecidableEq, Repr

/-- Result, post-call storage and deposited events of one dispatchable call. -/
structure CallOutcome where
  result : Except Error Unit
  proofs : Proofs
  events : List Event

/-- `create_claim`: fails with `ProofAlreadyExist` if the key is present,
otherwise inserts `(who, block_number, true)` and deposits `ClaimCreated`. -/
def create_claim (st : Proofs) (bn : BlockNumber) (who : AccountId)
    (claim : Fingerprint) : CallOutcome :=
  if containsKey st claim then
    ⟨.error .ProofAlreadyExist, st, []⟩
  else
    ⟨.ok (), insertP st claim ⟨who, bn, true⟩, [.ClaimCreated who claim]⟩

/-- `revoke_claim`: checks `contains_key` (else `ProofNotExist`), reads the
record (`get ... ok_or ProofNotExist`), checks `who == owner` (else
`NotProofOwner`), checks `is_active` (else `ProofAlreadyRevoked`), then
inserts `(who, block_number, false)` and deposits `ClaimRevoked`. -/
def revoke_claim (st : Proofs) (bn : BlockNumber) (who : AccountId)
    (claim : Fingerprint) : CallOutcome :=
  if containsKey st claim then
    match st claim with
    | none => ⟨.error .ProofNotExist, st, []⟩
    | some r =>
      if who = r.owner then
        if r.active then
          ⟨.ok (), insertP st claim ⟨who, bn, false⟩, [.ClaimRevoked who claim]⟩
        else
          ⟨.error .ProofAlreadyRevoked, st, []⟩
      else
        ⟨.error .NotProofOwner, st, []⟩
  else
    ⟨.error .ProofNotExist, st, []⟩

/-- `transfer_claim`: reads the record (`get ... ok_or ProofNotExist`), checks
`current_owner == sender` (else `NotProofOwner`), checks
`current_owner != new_owner` (else `CannotTransferToSelf`), then inserts
`(new_owner, block_number, true)` — `block_number` being the stored one —
and deposits `ClaimTransferred`. -/
def transfer_claim (st : Proofs) (_bn : BlockNumber) (sender : AccountId)
    (claim : Fingerprint) (new_owner : AccountId) : CallOutcome :=
  match st claim with
  | none => ⟨.error .ProofNotExist, st, []⟩
  | some r =>
    if r.owner = sender then
      if r.owner ≠ new_owner then
        ⟨.ok (), insertP st claim ⟨new_owner, r.registeredAt, true⟩,
          [.ClaimTransferred sender new_owner claim]⟩
      else
        ⟨.error .CannotTransferToSelf, st, []⟩
    else
      ⟨.error .NotProofOwner, st, []⟩

/-- A call to one of the three dispatchables, with its authenticated caller. -/
inductive Op where
  | create (who : AccountId) (claim : Fingerprint)
  | revoke (who : AccountId) (claim : Fingerprint)
  | transfer (who : AccountId) (claim : Fingerprint) (new_owner : AccountId)
  deriving DecidableEq, Repr

/-- The fingerprint argument of an operation. -/
def claimOf : Op → Fingerprint
  | .create _ c => c
  | .revoke _ c => c
  | .transfer _ c _ => c

/-- Dispatch one operation against the storage at a given block number. -/
def step (st : Proofs) (bn : BlockNumber) : Op → CallOutcome
  | .create who c => create_claim st bn who c
  | .revoke who c => revoke_claim st bn who c
  | .transfer who c n => transfer_claim st bn who c n

/-- Whether dispatching `op` at block `bn` in state `st` succeeds. -/
def stepOk (st : Proofs) (bn : BlockNumber) (op : Op) : Bool :=
  match (step st bn op).result with
  | .ok _ => true
  | .error _ => false

/-- Run a sequence of operations, each tagged with the block number at which
it executes, and return the final storage map. -/
def runOps (st : Proofs) : List (BlockNumber × Op) → Proofs
  | [] => st
  | (bn, op) :: rest => runOps (step st bn op).proofs rest

/-- Whether `op` is a Create or a Transfer whose fingerprint argument is `f`. -/
def isCreateOrTransferOf (f : Fingerprint) : Op → Bool
  | .create _ c => decide (c = f)
  | .transfer _ c _ => decide (c = f)
  | .revoke _ _ => false

/-- Whether `op` is a Create or a Revoke whose fingerprint argument is `f`. -/
def isCreateOrRevokeOf (f : Fingerprint) : Op → Bool
  | .create _ c => decide (c = f)
  | .revoke _ c => decide (c = f)
  | .transfer _ _ _ => false

/-- Whether `op` is a Revoke whose fingerprint argument is `f`. -/
def isRevokeOf (f : Fingerprint) : Op → Bool
  | .revoke _ c => decide (c = f)
  | .create _ _ => false
  | .transfer _ _ _ => false

/-- Block number of the last successful operation satisfying `p` along a
trace executed from `st`, with `acc` the value carried in from before the
trace. -/
def lastOpTime (p : Op → Bool) : Proofs → Option BlockNumber →
    List (BlockNumber × Op) → Option BlockNumber
  | _, acc, [] => acc
  | st, acc, (bn, op) :: rest =>
    lastOpTime p (step st bn op).proofs
      (if p op && stepOk st bn op then some bn else acc) rest

/-- Block number of the most recent successful Create or Transfer of `f`
along a trace executed from `st` (`none` if there is no such operation). -/
def lastCreateTransferTime (st : Proofs) (trace : List (BlockNumber × Op))
    (f : Fingerprint) : Option BlockNumber :=
  lastOpTime (isCreateOrTransferOf f) st none trace

/-- Block number of the most recent successful Create or Revoke of `f`
along a trace executed from `st` (`none` if there is no such operation). -/
def lastCreateRevokeTime (st : Proofs) (trace : List (BlockNumber × Op))
    (f : Fingerprint) : Option BlockNumber :=
  lastOpTime (isCreateOrRevokeOf f) st none trace

/-- Block numbers of all successful operations satisfying `p` along a trace
executed from `st`. -/
def opTimes (p : Op → Bool) : Proofs → List (BlockNumber × Op) → List BlockNumber
  | _, [] => []
  | st, (bn, op) :: rest =>
    (if p op && stepOk st bn op then [bn] else []) ++
      opTimes p (step st bn op).proofs rest

/-- Block numbers of all successful Revokes of `f` along a trace executed
from `st`. -/
def revokeTimes (st : Proofs) (trace : List (BlockNumber × Op))
    (f : Fingerprint) : List BlockNumber :=
  opTimes (isRevokeOf f) st trace

/-- Create by account 0 at block 1, revoke at block 2, then transfer to
account 1 at block 3 — all on the same fingerprint `[0]`. -/
def createRevokeTransferTrace : List (BlockNumber × Op) :=
  [(1, .create 0 [0]), (2, .revoke 0 [0]), (3, .transfer 0 [0] 1)]

/-- Inserting at `c` stores the record at `c`. -/
theorem insertP_self (st : Proofs) (c : Fingerprint) (r : ClaimRecord) :
    insertP st c r c = some r := by
  simp [insertP]

/-- Inserting at `c` leaves every other key unchanged. -/
theorem insertP_ne (st : Proofs) (c k : Fingerprint) (r : ClaimRecord)
    (h : k ≠ c) : insertP st c r k = st k := by
  simp [insertP, h]

/-- `containsKey` is presence of the lookup. -/
theorem containsKey_eq (st : Proofs) (c : Fingerprint) :
    containsKey st c = (st c).isSome := rfl

/-- One dispatched operation never touches the entry of a fingerprint other
than its own argument. -/
theorem step_frame_aux (st : Proofs) (bn : BlockNumber) (op : Op)
    (g : Fingerprint) (h : g ≠ claimOf op) :
    (step st bn op).proofs g = st g := by
  cases op with
  | create who c =>
    simp only [claimOf] at h
    by_cases hc : containsKey st c
    · simp [step, create_claim, hc]
    · simp [step, create_claim, hc, insertP, h]
  | revoke who c =>
    simp only [claimOf] at h
    rcases hsc : st c with _ | r
    · simp [step, revoke_claim, containsKey, hsc]
    · by_cases how : who = r.owner
      · by_cases ha : r.active = true
        · simp [step, revoke_claim, containsKey, hsc, how, ha, insertP, h]
        · simp [step, revoke_claim, containsKey, hsc, how, ha]
      · simp [step, revoke_claim, containsKey, hsc, how]
  | transfer who c n =>
    simp only [claimOf] at h
    rcases hsc : st c with _ | r
    · simp [step, transfer_claim, hsc]
    · by_cases how : r.owner = who
      · subst how
        by_cases hn : r.owner = n
        · simp [step, transfer_claim, hsc, hn]
        · simp [step, transfer_claim, hsc, hn, insertP, h]
      · simp [step, transfer_claim, hsc, how]

/-- One dispatched operation never removes an entry: a present fingerprint
stays present. -/
theorem step_preserves_present (st : Proofs) (bn : BlockNumber) (op : Op)
    (f : Fingerprint) (h : (st f).isSome = true) :
    ((step st bn op).proofs f).isSome = true := by
  by_cases hg : f = claimOf op
  · cases op with
    | create who c =>
      simp only [claimOf] at hg; subst hg
      by_cases hc : containsKey st f
      · simpa [step, create_claim, hc] using h
      · simp [step, create_claim, hc, insertP]
    | revoke who c =>
      simp only [claimOf] at hg; subst hg
      rcases hsc : st f with _ | r
      · simp [hsc] at h
      · by_cases how : who = r.owner
        · by_cases ha : r.active = true
          · simp [step, revoke_claim, containsKey, hsc, how, ha, insertP]
          · simp [step, revoke_claim, containsKey, hsc, how, ha]
        · simp [step, revoke_claim, containsKey, hsc, how]
    | transfer who c n =>
      simp only [claimOf] at hg; subst hg
      rcases hsc : st f with _ | r
      · simp [hsc] at h
      · by_cases how : r.owner = who
        · subst how
          by_cases hn : r.owner = n
          · simp [step, transfer_claim, hsc, hn]
          · simp [step, transfer_claim, hsc, hn, insertP]
        · simp [step, transfer_claim, hsc, how]
  · rw [step_frame_aux st bn op f hg]; exact h

/-- Running a trace never removes an entry: a present fingerprint stays
present. -/
theorem runOps_preserves_present (trace : List (BlockNumber × Op)) :
    ∀ (st : Proofs) (f : Fingerprint), (st f).isSome = true →
      ((runOps st trace) f).isSome = true := by
  induction trace with
  | nil => intro st f h; simpa [runOps] using h
  | cons hd tl ih =>
    obtain ⟨bn, op⟩ := hd
    intro st f h
    simp only [runOps]
    exact ih _ f (step_preserves_present st bn op f h)

/-- Claim C6: for every fingerprint `f` not present in the mapping and every
requester, `create_claim` succeeds, inserts the record
`(requester, currentTime, true)` for `f`, and emits
`ClaimCreated{owner: requester, claim: f}`. -/
theorem create_claim_on_absent (st : Proofs) (bn : BlockNumber)
    (who : AccountId) (f : Fingerprint) (h : st f = none) :
    (create_claim st bn who f).result = .ok () ∧
    (create_claim st bn who f).proofs f = some ⟨who, bn, true⟩ ∧
    (create_claim st bn who f).events = [.ClaimCreated who f] := by
  simp [create_claim, containsKey, h, insertP]

/-- Witness for C6: creating `[0]` for account 7 at block 4 in the empty map
succeeds with the expected record and event. -/
theorem create_claim_on_absent_witness :
    (create_claim emptyProofs 4 7 [0]).result = .ok () ∧
    (create_claim emptyProofs 4 7 [0]).proofs [0] = some ⟨7, 4, true⟩ ∧
    (create_claim emptyProofs 4 7 [0]).events = [.ClaimCreated 7 [0]] :=
  create_claim_on_absent emptyProofs 4 7 [0] rfl

/-- Claim C7: for every fingerprint `f` whose record exists, with the
requester equal to the stored owner and the record active, `revoke_claim`
succeeds and rewrites the record with `active = false`, owner unchanged
(still the requester), and `registeredAt` overwritten with the current block
number of the revoke. -/
theorem revoke_claim_by_owner (st : Proofs) (bn : BlockNumber)
    (who : AccountId) (f : Fingerprint) (r : ClaimRecord) (h : st f = some r)
    (how : who = r.owner) (ha : r.active = true) :
    (revoke_claim st bn who f).result = .ok () ∧
    (revoke_claim st bn who f).proofs f = some ⟨r.owner, bn, false⟩ := by
  subst how
  simp [revoke_claim, containsKey, h, ha, insertP]

/-- Witness for C7: account 7 revoking its active claim on `[0]` at block 9
succeeds and leaves the record `(7, 9, false)`. -/
theorem revoke_claim_by_owner_witness :
    (revoke_claim (insertP emptyProofs [0] ⟨7, 4, true⟩) 9 7 [0]).result
      = .ok () ∧
    (revoke_claim (insertP emptyProofs [0] ⟨7, 4, true⟩) 9 7 [0]).proofs [0]
      = some ⟨7, 9, false⟩ :=
  revoke_claim_by_owner (insertP emptyProofs [0] ⟨7, 4, true⟩) 9 7 [0]
    ⟨7, 4, true⟩ (by decide) rfl rfl

/-- Claim C8: `revoke_claim`'s preconditions are checked in a fixed order and
the first failing check determines the error: absent entry gives
`ProofNotExist`; present entry with a different owner gives `NotProofOwner`
even if the record is also inactive; present entry owned by the requester but
inactive gives `ProofAlreadyRevoked`. -/
theorem revoke_claim_error_order (st : Proofs) (bn : BlockNumber)
    (who : AccountId) (f : Fingerprint) :
    (st f = none →
      (revoke_claim st bn who f).result = .error .ProofNotExist) ∧
    (∀ r, st f = some r → who ≠ r.owner →
      (revoke_claim st bn who f).result = .error .NotProofOwner) ∧
    (∀ r, st f = some r → who = r.owner → r.active = false →
      (revoke_claim st bn who f).result = .error .ProofAlreadyRevoked) := by
  refine ⟨fun h => ?_, fun r h hne => ?_, fun r h how ha => ?_⟩
  · simp [revoke_claim, containsKey, h]
  · simp [revoke_claim, containsKey, h, hne]
  · subst how
    simp [revoke_claim, containsKey, h, ha]

/-- Witness for C8: on the empty map revoking `[0]` gives `ProofNotExist`;
with an inactive record owned by 7, requester 8 gets `NotProofOwner` and
requester 7 gets `ProofAlreadyRevoked`. -/
theorem revoke_claim_error_order_witness :
    (revoke_claim emptyProofs 2 7 [0]).result = .error .ProofNotExist ∧
    (revoke_claim (insertP emptyProofs [0] ⟨7, 1, false⟩) 2 8 [0]).result
      = .error .NotProofOwner ∧
    (revoke_claim (insertP emptyProofs [0] ⟨7, 1, false⟩) 2 7 [0]).result
      = .error .ProofAlreadyRevoked :=
  ⟨(revoke_claim_error_order emptyProofs 2 7 [0]).1 rfl,
   (revoke_claim_error_order (insertP emptyProofs [0] ⟨7, 1, false⟩) 2 8
      [0]).2.1 ⟨7, 1, false⟩ (by decide) (by decide),
   (revoke_claim_error_order (insertP emptyProofs [0] ⟨7, 1, false⟩) 2 7
      [0]).2.2 ⟨7, 1, false⟩ (by decide) rfl rfl⟩

/-- Claim C5: `transfer_claim` does not check the record's `active` flag: for
every fingerprint `f` with an existing record (active or revoked), if the
requester equals the stored owner and the new owner differs from the
requester, the transfer succeeds and the resulting record has
`owner = new_owner` and `active = true` unconditionally (a transfer of a
revoked claim reactivates it). -/
theorem transfer_claim_ignores_active (st : Proofs) (bn : BlockNumber)
    (who : AccountId) (f : Fingerprint) (n : AccountId) (r : ClaimRecord)
    (h : st f = some r) (how : who = r.owner) (hn : n ≠ who) :
    (transfer_claim st bn who f n).result = .ok () ∧
    (transfer_claim st bn who f n).proofs f
      = some ⟨n, r.registeredAt, true⟩ := by
  subst how
  simp [transfer_claim, h, Ne.symm hn, insertP]

/-- Witness for C5: transferring the revoked claim `[0]` (record
`(7, 4, false)`) from owner 7 to account 8 succeeds and yields the active
record `(8, 4, true)`. -/
theorem transfer_claim_ignores_active_witness :
    (transfer_claim (insertP emptyProofs [0] ⟨7, 4, false⟩) 9 7 [0] 8).result
      = .ok () ∧
    (transfer_claim (insertP emptyProofs [0] ⟨7, 4, false⟩) 9 7 [0] 8).proofs
      [0] = some ⟨8, 4, true⟩ :=
  transfer_claim_ignores_active (insertP emptyProofs [0] ⟨7, 4, false⟩) 9 7
    [0] 8 ⟨7, 4, false⟩ (by decide) rfl (by decide)

/-- Claim C3: for every fingerprint `f` whose record is active and every
actor `a` different from the stored owner, `revoke_claim` and
`transfer_claim` both fail with `NotProofOwner` and the record for `f` is
unchanged by the call. -/
theorem not_owner_rejected (st : Proofs) (bn : BlockNumber) (a : AccountId)
    (f : Fingerprint) (r : ClaimRecord) (h : st f = some r)
    (_ha : r.active = true) (hne : a ≠ r.owner) :
    ((revoke_claim st bn a f).result = .error .NotProofOwner ∧
      (revoke_claim st bn a f).proofs f = st f) ∧
    (∀ n, (transfer_claim st bn a f n).result = .error .NotProofOwner ∧
      (transfer_claim st bn a f n).proofs f = st f) := by
  constructor
  · simp [revoke_claim, containsKey, h, hne]
  · intro n
    simp [transfer_claim, h, Ne.symm hne]

/-- Witness for C3: account 8 can neither revoke nor transfer the active
claim `[0]` owned by account 7; both attempts return `NotProofOwner` and the
record stays `(7, 4, true)`. -/
theorem not_owner_rejected_witness :
    ((revoke_claim (insertP emptyProofs [0] ⟨7, 4, true⟩) 9 8 [0]).result
       = .error .NotProofOwner ∧
     (revoke_claim (insertP emptyProofs [0] ⟨7, 4, true⟩) 9 8 [0]).proofs [0]
       = insertP emptyProofs [0] ⟨7, 4, true⟩ [0]) ∧
    ((transfer_claim (insertP emptyProofs [0] ⟨7, 4, true⟩) 9 8 [0] 5).result
       = .error .NotProofOwner ∧
     (transfer_claim (insertP emptyProofs [0] ⟨7, 4, true⟩) 9 8 [0] 5).proofs
       [0] = insertP emptyProofs [0] ⟨7, 4, true⟩ [0]) :=
  ⟨(not_owner_rejected (insertP emptyProofs [0] ⟨7, 4, true⟩) 9 8 [0]
      ⟨7, 4, true⟩ (by decide) rfl (by decide)).1,
   (not_owner_rejected (insertP emptyProofs [0] ⟨7, 4, true⟩) 9 8 [0]
      ⟨7, 4, true⟩ (by decide) rfl (by decide)).2 5⟩

/-- Claim C2: for every operation (Create, Revoke, Transfer), every starting
mapping state, and every argument tuple, if the operation returns an error
then the mapping after the call is exactly the mapping before the call. -/
theorem failed_op_state_unchanged (st : Proofs) (bn : BlockNumber) (op : Op)
    (e : Error) (h : (step st bn op).result = .error e) :
    (step st bn op).proofs = st := by
  cases op with
  | create who c =>
    by_cases hc : containsKey st c
    · simp [step, create_claim, hc]
    · simp [step, create_claim, hc] at h
  | revoke who c =>
    rcases hsc : st c with _ | r
    · simp [step, revoke_claim, containsKey, hsc]
    · by_cases how : who = r.owner
      · by_cases ha : r.active = true
        · simp [step, revoke_claim, containsKey, hsc, how, ha] at h
        · simp [step, revoke_claim, containsKey, hsc, how, ha]
      · simp [step, revoke_claim, containsKey, hsc, how]
  | transfer who c n =>
    rcases hsc : st c with _ | r
    · simp [step, transfer_claim, hsc]
    · by_cases how : r.owner = who
      · subst how
        by_cases hn : r.owner = n
        · simp [step, transfer_claim, hsc, hn]
        · simp [step, transfer_claim, hsc, hn] at h
      · simp [step, transfer_claim, hsc, how]

/-- Witness for C2: revoking the absent claim `[0]` on the empty map errors
and the map is unchanged. -/
theorem failed_op_state_unchanged_witness :
    (step emptyProofs 3 (.revoke 7 [0])).proofs = emptyProofs :=
  failed_op_state_unchanged emptyProofs 3 (.revoke 7 [0]) .ProofNotExist rfl

/-- Claim C10 (frame property): every operation, whether it succeeds or
fails, leaves the mapping entry of every fingerprint other than its own
argument unchanged. -/
theorem op_frame (st : Proofs) (bn : BlockNumber) (op : Op)
    (g : Fingerprint) (h : g ≠ claimOf op) :
    (step st bn op).proofs g = st g :=
  step_frame_aux st bn op g h

/-- Witness for C10: creating `[0]` in the empty map leaves the entry of
`[1]` unchanged. -/
theorem op_frame_witness :
    (step emptyProofs 1 (.create 7 [0])).proofs [1] = emptyProofs [1] :=
  op_frame emptyProofs 1 (.create 7 [0]) [1] (by decide)

/-- Claim C1: at most one Create can ever succeed per fingerprint: whenever
the mapping already contains an entry for `f` (active or not),
`create_claim` fails with `ProofAlreadyExist` for every requester, and after
a successful Create of `f` every later Create of `f` — following any
sequence of further operations — fails with `ProofAlreadyExist`. -/
theorem create_claim_unique :
    (∀ (st : Proofs) (bn : BlockNumber) (who : AccountId) (f : Fingerprint),
      containsKey st f = true →
      (create_claim st bn who f).result = .error .ProofAlreadyExist) ∧
    (∀ (st : Proofs) (bn : BlockNumber) (who : AccountId) (f : Fingerprint)
      (trace : List (BlockNumber × Op)) (bn' : BlockNumber)
      (who' : AccountId),
      (create_claim st bn who f).result = .ok () →
      (create_claim (runOps (create_claim st bn who f).proofs trace) bn' who'
        f).result = .error .ProofAlreadyExist) := by
  have hfail : ∀ (st : Proofs) (bn : BlockNumber) (who : AccountId)
      (f : Fingerprint), containsKey st f = true →
      (create_claim st bn who f).result = .error .ProofAlreadyExist := by
    intro st bn who f h
    simp [create_claim, h]
  refine ⟨hfail, ?_⟩
  intro st bn who f trace bn' who' hok
  apply hfail
  rw [containsKey_eq]
  apply runOps_preserves_present
  by_cases hc : containsKey st f
  · simp [create_claim, hc] at hok
  · simp [create_claim, hc, insertP]

/-- Witness for C1: creating `[0]` over an existing revoked record fails with
`ProofAlreadyExist`; and after account 0 creates `[0]` at block 1 and
revokes it at block 2, account 1's Create at block 3 also fails with
`ProofAlreadyExist`. -/
theorem create_claim_unique_witness :
    (create_claim (insertP emptyProofs [0] ⟨7, 1, false⟩) 2 5 [0]).result
      = .error .ProofAlreadyExist ∧
    (create_claim (runOps (create_claim emptyProofs 1 0 [0]).proofs
        [(2, .revoke 0 [0])]) 3 1 [0]).result
      = .error .ProofAlreadyExist :=
  ⟨create_claim_unique.1 (insertP emptyProofs [0] ⟨7, 1, false⟩) 2 5 [0]
     (by decide),
   create_claim_unique.2 emptyProofs 1 0 [0] [(2, .revoke 0 [0])] 3 1 rfl⟩

/-- Counterexample for C9 as stated: it is not true that for every state,
fingerprint and requester, a self-transfer fails with
`CannotTransferToSelf` — when the requester is not the stored owner, the
ownership check fires first and the call fails with `NotProofOwner`. -/
theorem transfer_to_self_cex :
    ¬ (∀ (st : Proofs) (bn : BlockNumber) (who : AccountId)
        (f : Fingerprint),
        (transfer_claim st bn who f who).result
          = .error .CannotTransferToSelf) := by
  intro h
  have h2 := h (insertP emptyProofs [0] ⟨0, 3, true⟩) 5 1 [0]
  rw [show (transfer_claim (insertP emptyProofs [0] ⟨0, 3, true⟩) 5 1 [0]
      1).result = .error .NotProofOwner from rfl] at h2
  simp at h2

/-- Claim C9 (amended): a self-transfer (`new_owner = requester`) never
succeeds; it fails with `CannotTransferToSelf` whenever the record exists
and the requester is the stored owner, regardless of the `active` flag
(otherwise the earlier existence/ownership checks produce their own
errors). -/
theorem transfer_to_self_rejected :
    (∀ (st : Proofs) (bn : BlockNumber) (who : AccountId) (f : Fingerprint)
      (r : ClaimRecord), st f = some r → r.owner = who →
      (transfer_claim st bn who f who).result
        = .error .CannotTransferToSelf) ∧
    (∀ (st : Proofs) (bn : BlockNumber) (who : AccountId) (f : Fingerprint),
      (transfer_claim st bn who f who).result ≠ .ok ()) := by
  constructor
  · intro st bn who f r h how
    subst how
    simp [transfer_claim, h]
  · intro st bn who f hok
    rcases hsc : st f with _ | r
    · simp [transfer_claim, hsc] at hok
    · by_cases how : r.owner = who
      · subst how
        simp [transfer_claim, hsc] at hok
      · simp [transfer_claim, hsc, how] at hok

/-- Witness for C9 (amended): owner 7 transferring its active claim `[0]` to
itself fails with `CannotTransferToSelf`, and a self-transfer by account 8
does not succeed either. -/
theorem transfer_to_self_rejected_witness :
    (transfer_claim (insertP emptyProofs [0] ⟨7, 4, true⟩) 9 7 [0] 7).result
      = .error .CannotTransferToSelf ∧
    (transfer_claim (insertP emptyProofs [0] ⟨7, 4, true⟩) 9 8 [0] 8).result
      ≠ .ok () :=
  ⟨transfer_to_self_rejected.1 (insertP emptyProofs [0] ⟨7, 4, true⟩) 9 7 [0]
     ⟨7, 4, true⟩ (by decide) rfl,
   transfer_to_self_rejected.2 (insertP emptyProofs [0] ⟨7, 4, true⟩) 9 8
     [0]⟩

/-- After one dispatched operation, the `registeredAt` of the entry at `f` is
the current block number if the operation was a successful Create or Revoke
of `f`, and the previous entry's `registeredAt` otherwise (Transfer copies
the stored block number). -/
theorem step_registeredAt (st : Proofs) (bn : BlockNumber) (op : Op)
    (f : Fingerprint) (r : ClaimRecord)
    (hr : (step st bn op).proofs f = some r) :
    (if isCreateOrRevokeOf f op && stepOk st bn op then some bn
     else (st f).map ClaimRecord.registeredAt) = some r.registeredAt := by
  obtain ⟨ro, ra, rc⟩ := r
  cases op with
  | create who c =>
    by_cases hfc : f = c
    · subst hfc
      by_cases hc : containsKey st f
      · simp [step, create_claim, hc] at hr
        simp [stepOk, step, create_claim, hc, hr]
      · simp [step, create_claim, hc, insertP] at hr
        simp [stepOk, step, create_claim, hc, isCreateOrRevokeOf, hr]
    · rw [step_frame_aux st bn (.create who c) f hfc] at hr
      simp [isCreateOrRevokeOf, Ne.symm hfc, hr]
  | revoke who c =>
    by_cases hfc : f = c
    · subst hfc
      rcases hsc : st f with _ | r0
      · simp [step, revoke_claim, containsKey, hsc] at hr
      · by_cases how : who = r0.owner
        · by_cases ha : r0.active = true
          · simp [step, revoke_claim, containsKey, hsc, how, ha, insertP]
              at hr
            simp [stepOk, step, revoke_claim, containsKey, hsc, how, ha,
              isCreateOrRevokeOf, hr]
          · simp [step, revoke_claim, containsKey, hsc, how, ha] at hr
            subst hr
            have ha2 : rc = false := by simpa using ha
            have hko : stepOk st bn (.revoke who f) = false := by
              simp [stepOk, step, revoke_claim, containsKey, hsc, how, ha2]
            simp [hko]
        · simp [step, revoke_claim, containsKey, hsc, how] at hr
          subst hr
          simp [stepOk, step, revoke_claim, containsKey, hsc, how]
    · rw [step_frame_aux st bn (.revoke who c) f hfc] at hr
      simp [isCreateOrRevokeOf, Ne.symm hfc, hr]
  | transfer who c n =>
    have hno : isCreateOrRevokeOf f (.transfer who c n) = false := rfl
    by_cases hfc : f = c
    · subst hfc
      rcases hsc : st f with _ | r0
      · simp [step, transfer_claim, hsc] at hr
      · by_cases how : r0.owner = who
        · subst how
          by_cases hn : r0.owner = n
          · simp [step, transfer_claim, hsc, hn] at hr
            subst hr
            simp [hno]
          · simp [step, transfer_claim, hsc, hn, insertP] at hr
            simp [hno, hr.2.1]
        · simp [step, transfer_claim, hsc, how] at hr
          subst hr
          simp [hno]
    · rw [step_frame_aux st bn (.transfer who c n) f hfc] at hr
      simp [hno, hr]

/-- Invariant: along any trace, the `registeredAt` of a present record always
equals the block number of the most recent successful Create or Revoke of its
fingerprint (threaded through the accumulator of `lastOpTime`). -/
theorem lastCreateRevoke_inv (trace : List (BlockNumber × Op)) :
    ∀ (st : Proofs) (acc : Option BlockNumber) (f : Fingerprint),
      (∀ r : ClaimRecord, st f = some r → acc = some r.registeredAt) →
      ∀ r : ClaimRecord, runOps st trace f = some r →
        lastOpTime (isCreateOrRevokeOf f) st acc trace
          = some r.registeredAt := by
  induction trace with
  | nil =>
    intro st acc f h r hr
    simp only [runOps] at hr
    simpa [lastOpTime] using h r hr
  | cons hd tl ih =>
    obtain ⟨bn, op⟩ := hd
    intro st acc f h r hr
    simp only [runOps] at hr
    simp only [lastOpTime]
    refine ih _ _ f ?_ r hr
    intro r2 hr2
    have hstep := step_registeredAt st bn op f r2 hr2
    by_cases hcond : (isCreateOrRevokeOf f op && stepOk st bn op) = true
    · rw [if_pos hcond] at hstep ⊢
      exact hstep
    · rw [if_neg hcond] at hstep ⊢
      rcases hsf : st f with _ | r0
      · rw [hsf] at hstep
        simp at hstep
      · rw [hsf] at hstep
        rw [h r0 hsf]
        simpa using hstep

/-- Counterexample for C4 as stated: after Create at block 1, Revoke at
block 2 and Transfer at block 3 (trace `createRevokeTransferTrace`), the
record of `[0]` is active with `registeredAt = 2`, which is the revoke time
and not the time of the most recent successful Create or Transfer (block 3):
Revoke overwrites the stored block number and Transfer copies it. -/
theorem active_registeredAt_cex :
    ¬ (∀ (trace : List (BlockNumber × Op)) (f : Fingerprint)
        (r : ClaimRecord), runOps emptyProofs trace f = some r →
        r.active = true →
        lastCreateTransferTime emptyProofs trace f = some r.registeredAt ∧
        r.registeredAt ∉ revokeTimes emptyProofs trace f) := by
  intro h
  have h2 := h createRevokeTransferTrace [0] ⟨1, 2, true⟩ (by decide) rfl
  have h4 : (2 : BlockNumber) ∈
      revokeTimes emptyProofs createRevokeTransferTrace [0] := by decide
  exact h2.2 h4

/-- Claim C4 (amended): for every reachable registry state (any trace from
the empty mapping) and fingerprint `f` whose record is active, the record's
`registeredAt` equals the block number of the most recent successful Create
or Revoke of `f` — Revoke re-stamps the stored time and Transfer preserves
it, so after a Revoke followed by a Transfer the active record keeps the
revoke time. -/
theorem active_registeredAt_amended (trace : List (BlockNumber × Op))
    (f : Fingerprint) (r : ClaimRecord)
    (hr : runOps emptyProofs trace f = some r) (_ha : r.active = true) :
    lastCreateRevokeTime emptyProofs trace f = some r.registeredAt :=
  lastCreateRevoke_inv trace emptyProofs none f
    (fun r2 h2 => by simp [emptyProofs] at h2) r hr

/-- Witness for C4 (amended): on `createRevokeTransferTrace` the active
record of `[0]` has `registeredAt = 2`, the time of its revoke — the most
recent successful Create or Revoke. -/
theorem active_registeredAt_amended_witness :
    lastCreateRevokeTime emptyProofs createRevokeTransferTrace [0]
      = some 2 :=
  active_registeredAt_amended createRevokeTransferTrace [0] ⟨1, 2, true⟩
    (by decide) rfl

end PoE
